import Mathlib

/-!
# lattice: the cell-distribution visualisation of app_examiner_command_factory.go

Shallow embedding of `printDistribution` and `visualizeCells`
(src/app_examiner/command_factory/app_examiner_command_factory.go).

The output sink is the sequence of calls made on `cmd.output`. The strings
built by the packages `colors` and `cursor` (not part of the source tree) are
kept symbolic: one constructor per library function.
-/

namespace Lattice

/-- Modelled from the spec: the type `app_examiner.CellInfo` is declared outside the
source tree; section 3 of the spec gives its attributes (identifier, missing flag,
running-instance count and claimed-instance count, both non-negative). -/
structure CellInfo where
  CellID : String
  Missing : Bool
  RunningInstances : Nat
  ClaimedInstances : Nat
deriving DecidableEq, Repr

/-- A Go string handed to `output.Say`. `raw` is an ordinary string; the other
constructors stand for the results of `colors.Bold`, `colors.Red`, `colors.Green`,
`colors.Yellow`, `cursor.Hide`, `cursor.Show`, `cursor.Up`, `cursor.ClearToEndOfLine`
and `cursor.ClearToEndOfDisplay`. -/
inductive Markup where
  | raw (s : String)
  | Bold (s : String)
  | Red (s : String)
  | Green (s : String)
  | Yellow (s : String)
  | Hide
  | Show
  | Up (n : Nat)
  | ClearToEndOfLine
  | ClearToEndOfDisplay
deriving DecidableEq, Repr

/-- One call on the output sink: `output.Say(m)` or `output.NewLine()`. -/
inductive Call where
  | say (m : Markup)
  | newLine
deriving DecidableEq, Repr

/-- Everything written to the output sink so far, oldest call first. -/
abbrev Output := List Call

/-- The call `cmd.output.Say(m)`. -/
def Output.Say (o : Output) (m : Markup) : Output := o ++ [Call.say m]

/-- The call `cmd.output.NewLine()`. -/
def Output.NewLine (o : Output) : Output := o ++ [Call.newLine]

/-- Go `strings.Repeat(s, count)` for a non-negative count. -/
def stringsRepeat (s : String) : Nat → String
  | 0 => ""
  | n + 1 => s ++ stringsRepeat s n

/-- The result of `cmd.appExaminer.ListCells()`: the cells, or the message of the error. -/
inductive ListCellsResult where
  | ok (cells : List CellInfo)
  | error (err : String)
deriving DecidableEq, Repr

/-- Body of the `for _, cell := range cells` loop of `printDistribution` (lines 233-242). -/
def printCell (o : Output) (cell : CellInfo) : Output :=
  let o := o.Say (Markup.raw cell.CellID)
  let o := if cell.Missing then o.Say (Markup.Red "[MISSING]") else o
  let o := o.Say (Markup.raw ": ")
  let o := o.Say (Markup.Green (stringsRepeat "•" cell.RunningInstances))
  let o := o.Say (Markup.Yellow (stringsRepeat "•" cell.ClaimedInstances))
  let o := o.Say Markup.ClearToEndOfLine
  o.NewLine

/-- The function `printDistribution` (lines 221-246). The argument `r` is what the call of
`ListCells` inside it returns. The deferred `Say(cursor.ClearToEndOfDisplay())` runs when the
function returns, on both paths. Returns the output sink and the returned int. -/
def printDistribution (o : Output) (r : ListCellsResult) : Output × Nat :=
  let deferred := fun (o : Output) => o.Say Markup.ClearToEndOfDisplay
  match r with
  | ListCellsResult.error err =>
    let o := o.Say (Markup.raw ("Error visualizing: " ++ err))
    let o := o.Say Markup.ClearToEndOfLine
    let o := o.NewLine
    (deferred o, 1)
  | ListCellsResult.ok cells =>
    let o := cells.foldl printCell o
    (deferred o, cells.length)

/-! ## Reading the output back -/

/-- Splits a sequence of calls at the `NewLine` calls: the terminated lines (each without its
`NewLine`), and what was written after the last `NewLine`. -/
def splitLines : List Call → List (List Call) × List Call
  | [] => ([], [])
  | Call.newLine :: cs => ([] :: (splitLines cs).1, (splitLines cs).2)
  | Call.say m :: cs =>
    match (splitLines cs).1 with
    | [] => ([], Call.say m :: (splitLines cs).2)
    | l :: ls => ((Call.say m :: l) :: ls, (splitLines cs).2)

/-- The text of a string with the colour markup removed; cursor directives carry no text. -/
def Markup.text : Markup → String
  | Markup.raw s => s
  | Markup.Bold s => s
  | Markup.Red s => s
  | Markup.Green s => s
  | Markup.Yellow s => s
  | _ => ""

/-- Whether a call writes a glyph bar (a green or a yellow string). -/
def Call.isBar : Call → Bool
  | Call.say (Markup.Green _) => true
  | Call.say (Markup.Yellow _) => true
  | _ => false

/-- The text of a call, colour markup removed. -/
def Call.text : Call → String
  | Call.say m => m.text
  | Call.newLine => "\n"

/-- The text of a line that precedes its glyph bars, colour markup removed. -/
def headText (line : List Call) : String :=
  String.join ((line.takeWhile (fun c => !c.isBar)).map Call.text)

/-- What one call of `printDistribution` writes. -/
def frame (r : ListCellsResult) : List Call := (printDistribution [] r).1

/-- What one call of `printDistribution` returns. -/
def lineCount (r : ListCellsResult) : Nat := (printDistribution [] r).2

/-- What the loop body writes for one cell. -/
def cellCalls (cell : CellInfo) : List Call := printCell [] cell

/-- The calls of a cell line that precede the glyph bars. -/
def lineHead (cell : CellInfo) : List Call :=
  [Call.say (Markup.raw cell.CellID)] ++
    (if cell.Missing then [Call.say (Markup.Red "[MISSING]")] else []) ++
    [Call.say (Markup.raw ": ")]

/-- The calls of the line of one cell, without the closing `NewLine`. -/
def cellLine (cell : CellInfo) : List Call :=
  lineHead cell ++
    [Call.say (Markup.Green (stringsRepeat "•" cell.RunningInstances)),
      Call.say (Markup.Yellow (stringsRepeat "•" cell.ClaimedInstances)),
      Call.say Markup.ClearToEndOfLine]

/-! ## The refresh loop of visualizeCells -/

/-- Where the goroutine running `visualizeCells` stands once the set-up (lines 193-208) is
done. `waiting`: at the `select` of line 211, holding `linesWritten`; the channel operands of
the `select` are evaluated (the timer of this round exists) and no case is taken yet.
`returned`: the function has returned. -/
inductive Loop where
  | waiting (linesWritten : Nat)
  | returned
deriving DecidableEq, Repr

/-- Where the func literal passed to `OnExit` (lines 205-208) stands: never passed to `OnExit`;
registered and not invoked; invoked and blocked at `closeChan <- true` (the channel is
unbuffered, so the send completes only when the `select` receives); past the send and before
`Say(cursor.Show())`; finished. The exit handler invokes it at most once, in a goroutine of
its own. -/
inductive Callback where
  | unregistered
  | registered
  | sending
  | sent
  | done
deriving DecidableEq, Repr

/-- The state of a run of `visualizeCells`. `out` holds the calls made on the output sink since
the function was entered, `timerReady` tells whether the channel of the timer created by the
current evaluation of the `select` holds a value, `timers` counts the `NewTimer` calls and
`frames` the `printDistribution` calls. -/
structure State where
  out : Output
  loop : Loop
  callback : Callback
  timerReady : Bool
  timers : Nat
  frames : Nat
deriving DecidableEq, Repr

/-- The function `visualizeCells` up to its first wait point (lines 193-211). `rate` is
`context.Duration("rate")` and `r0` is what `ListCells` returns to the first
`printDistribution`. With a non-zero rate the function says `cursor.Hide`, hands the callback
to `OnExit` and enters the `select`, whose evaluation creates the first timer. -/
def visualizeCells (rate : Int) (r0 : ListCellsResult) : State :=
  let o : Output := Output.Say [] (Markup.Bold "Distribution\n")
  let p := printDistribution o r0
  if rate = 0 then
    { out := p.1, loop := Loop.returned, callback := Callback.unregistered,
      timerReady := false, timers := 0, frames := 1 }
  else
    { out := p.1.Say Markup.Hide, loop := Loop.waiting p.2, callback := Callback.registered,
      timerReady := false, timers := 1, frames := 1 }

/-- What can happen next in a run. `fire`: the current timer elapses. `exit`: the exit handler
invokes the registered callback. `tick r`: the `select` takes the timer case, and `ListCells`
returns `r` to the `printDistribution` that follows. `close`: the `select` takes the
`closeChan` case, completing the send of the callback. `show`: the callback goes on to
`Say(cursor.Show())`. -/
inductive Label where
  | fire
  | exit
  | tick (r : ListCellsResult)
  | close
  | show
deriving DecidableEq, Repr

/-- One step of the run (lines 205-217). A Go `select` may take any case whose communication
can proceed: the timer case when the timer channel holds a value, the `closeChan` case when
the callback is blocked at its send. Neither case has precedence in the source. A step that
is not enabled gives `none`. -/
def step (s : State) : Label → Option State
  | Label.fire =>
    match s.loop, s.timerReady with
    | Loop.waiting _, false => some { s with timerReady := true }
    | _, _ => none
  | Label.exit =>
    match s.callback with
    | Callback.registered => some { s with callback := Callback.sending }
    | _ => none
  | Label.tick r =>
    match s.loop, s.timerReady with
    | Loop.waiting linesWritten, true =>
      let o := s.out.Say (Markup.Up linesWritten)
      let p := printDistribution o r
      some { s with out := p.1, loop := Loop.waiting p.2, timerReady := false,
                    timers := s.timers + 1, frames := s.frames + 1 }
    | _, _ => none
  | Label.close =>
    match s.loop, s.callback with
    | Loop.waiting _, Callback.sending =>
      some { s with loop := Loop.returned, callback := Callback.sent }
    | _, _ => none
  | Label.show =>
    match s.callback with
    | Callback.sent => some { s with out := s.out.Say Markup.Show, callback := Callback.done }
    | _ => none

/-- A run: the steps of a list of labels, one after the other. -/
def run (s : State) : List Label → Option State
  | [] => some s
  | l :: ls => (step s l).bind (fun s1 => run s1 ls)

/-- The `ListCells` results of the ticks of a run, in order. -/
def ticksOf : List Label → List ListCellsResult
  | [] => []
  | Label.tick r :: ls => r :: ticksOf ls
  | _ :: ls => ticksOf ls

/-- What the ticks write: for each tick, `cursor.Up` of the count of the frame before it,
then the frame of the tick. `prev` is the `ListCells` result of the frame before the first
tick of the list. -/
def redraws (prev : ListCellsResult) : List ListCellsResult → List Call
  | [] => []
  | r :: rs => Call.say (Markup.Up (lineCount prev)) :: (frame r ++ redraws r rs)

/-- The wait point at which the cancellation signal and a tick are both ready: the loop is at
the `select`, the timer channel holds a value and the callback is blocked at its send. -/
def bothReady (s : State) : Bool :=
  match s.loop, s.callback with
  | Loop.waiting _, Callback.sending => s.timerReady
  | _, _ => false

/-- What the callback has written: `cursor.Show` once it has finished, nothing before. -/
def showTail : Callback → List Call
  | Callback.done => [Call.say Markup.Show]
  | _ => []

/-- The output of a run with a non-zero rate whose labels are `ls`, first frame fetched `r0`
and callback in state `cb`: the title, the first frame, `cursor.Hide`, the redraws of the
ticks, and what the callback has written. -/
def expectedOut (r0 : ListCellsResult) (ls : List Label) (cb : Callback) : List Call :=
  Call.say (Markup.Bold "Distribution\n") :: frame r0 ++
    Call.say Markup.Hide :: redraws r0 (ticksOf ls) ++ showTail cb

/-- The last result of a sequence of `ListCells` results that starts with `prev`. -/
def lastOf (prev : ListCellsResult) : List ListCellsResult → ListCellsResult
  | [] => prev
  | r :: rs => lastOf r rs

/-- The `ListCells` result of the latest frame of a run. -/
def lastResult (r0 : ListCellsResult) (ls : List Label) : ListCellsResult :=
  lastOf r0 (ticksOf ls)

/-- How the loop and the callback stand together after the labels `ls`, and what the stored
count is. -/
def phase (r0 : ListCellsResult) (ls : List Label) : Loop → Callback → Prop
  | Loop.waiting n, Callback.registered =>
    n = lineCount (lastResult r0 ls) ∧ ls.count Label.exit = 0 ∧ ls.count Label.close = 0
  | Loop.waiting n, Callback.sending =>
    n = lineCount (lastResult r0 ls) ∧ ls.count Label.exit = 1 ∧ ls.count Label.close = 0
  | Loop.returned, Callback.sent => ls.count Label.exit = 1 ∧ ls.count Label.close = 1
  | Loop.returned, Callback.done => ls.count Label.exit = 1 ∧ ls.count Label.close = 1
  | _, _ => False

/-- The invariant of the runs of `visualizeCells` with a non-zero rate. -/
structure Inv (r0 : ListCellsResult) (ls : List Label) (s : State) : Prop where
  out_eq : s.out = expectedOut r0 ls s.callback
  frames_eq : s.frames = (ticksOf ls).length + 1
  timers_eq : s.timers = (ticksOf ls).length + 1
  phase_ok : phase r0 ls s.loop s.callback

/-! ## Lemmas on the embedding -/

theorem printCell_eq (o : Output) (cell : CellInfo) :
    printCell o cell = o ++ cellCalls cell := by
  cases h : cell.Missing <;>
    simp [printCell, cellCalls, Output.Say, Output.NewLine, h]

theorem foldl_printCell (cells : List CellInfo) (o : Output) :
    cells.foldl printCell o = o ++ (cells.map cellCalls).flatten := by
  induction cells generalizing o with
  | nil => simp
  | cons c cs ih => simp [List.foldl_cons, ih, printCell_eq, List.append_assoc]

theorem printDistribution_fst (o : Output) (r : ListCellsResult) :
    (printDistribution o r).1 = o ++ frame r := by
  cases r with
  | error e => simp [printDistribution, frame, Output.Say, Output.NewLine]
  | ok cells => simp [printDistribution, frame, Output.Say, foldl_printCell]

theorem printDistribution_snd (o : Output) (r : ListCellsResult) :
    (printDistribution o r).2 = lineCount r := by
  cases r <;> rfl

theorem frame_ok (cells : List CellInfo) :
    frame (ListCellsResult.ok cells) = (cells.map cellCalls).flatten ++ [Call.say Markup.ClearToEndOfDisplay] := by
  simp [frame, printDistribution, Output.Say, foldl_printCell]

theorem frame_error (e : String) :
    frame (ListCellsResult.error e) =
      [Call.say (Markup.raw ("Error visualizing: " ++ e)), Call.say Markup.ClearToEndOfLine,
        Call.newLine, Call.say Markup.ClearToEndOfDisplay] := by
  simp [frame, printDistribution, Output.Say, Output.NewLine]

theorem cellCalls_eq (cell : CellInfo) : cellCalls cell = cellLine cell ++ [Call.newLine] := by
  cases h : cell.Missing <;>
    simp [cellCalls, cellLine, lineHead, printCell, Output.Say, Output.NewLine, h]

theorem newLine_not_mem_cellLine (cell : CellInfo) : Call.newLine ∉ cellLine cell := by
  cases h : cell.Missing <;> simp [cellLine, lineHead, h]

theorem splitLines_of_no_newLine (l : List Call) (h : Call.newLine ∉ l) :
    splitLines l = ([], l) := by
  induction l with
  | nil => rfl
  | cons a l ih =>
    cases a with
    | newLine => simp at h
    | say m =>
      have hl : Call.newLine ∉ l := fun hm => h (List.mem_cons_of_mem _ hm)
      simp [splitLines, ih hl]

theorem splitLines_line (l : List Call) (h : Call.newLine ∉ l) (cs : List Call) :
    splitLines (l ++ Call.newLine :: cs) = (l :: (splitLines cs).1, (splitLines cs).2) := by
  induction l with
  | nil => simp [splitLines]
  | cons a l ih =>
    cases a with
    | newLine => simp at h
    | say m =>
      have hl : Call.newLine ∉ l := fun hm => h (List.mem_cons_of_mem _ hm)
      simp [splitLines, ih hl]

theorem splitLines_cells (cells : List CellInfo) (rest : List Call)
    (h : Call.newLine ∉ rest) :
    splitLines ((cells.map cellCalls).flatten ++ rest) = (cells.map cellLine, rest) := by
  induction cells with
  | nil => simpa using splitLines_of_no_newLine rest h
  | cons c cs ih =>
    have e : ((c :: cs).map cellCalls).flatten ++ rest
        = cellLine c ++ Call.newLine :: ((cs.map cellCalls).flatten ++ rest) := by
      simp [cellCalls_eq, List.append_assoc]
    rw [e, splitLines_line _ (newLine_not_mem_cellLine c), ih]
    simp

theorem count_newLine_cellCalls (cell : CellInfo) :
    (cellCalls cell).count Call.newLine = 1 := by
  cases h : cell.Missing <;>
    simp [cellCalls, printCell, Output.Say, Output.NewLine, h, List.count_cons]

theorem count_newLine_cells (cells : List CellInfo) :
    ((cells.map cellCalls).flatten).count Call.newLine = cells.length := by
  induction cells with
  | nil => rfl
  | cons c cs ih =>
    simp [List.count_append, count_newLine_cellCalls, ih, Nat.add_comm]

theorem stringsRepeat_bullet (n : Nat) :
    (stringsRepeat "•" n).data = List.replicate n '•' := by
  induction n with
  | zero => rfl
  | succ n ih =>
    simp only [stringsRepeat, String.data_append, ih, List.replicate_succ]
    rfl

theorem frame_ok_split (cells : List CellInfo) :
    splitLines (frame (ListCellsResult.ok cells))
      = (cells.map cellLine, [Call.say Markup.ClearToEndOfDisplay]) := by
  rw [frame_ok]
  exact splitLines_cells cells _ (by simp)

theorem clearDisplay_not_mem_cells (cells : List CellInfo) :
    Call.say Markup.ClearToEndOfDisplay ∉ (cells.map cellCalls).flatten := by
  intro h
  rcases List.mem_flatten.1 h with ⟨l, hl, hc⟩
  rcases List.mem_map.1 hl with ⟨c, _, rfl⟩
  rw [cellCalls_eq] at hc
  cases hm : c.Missing <;> simp [cellLine, lineHead, hm] at hc

theorem headText_cellLine (cell : CellInfo) :
    headText (cellLine cell)
      = if cell.Missing then cell.CellID ++ "[MISSING]: " else cell.CellID ++ ": " := by
  cases hm : cell.Missing
  · simp [headText, cellLine, lineHead, hm, List.takeWhile, Call.isBar, Call.text,
      Markup.text, String.join]
  · simp [headText, cellLine, lineHead, hm, List.takeWhile, Call.isBar, Call.text,
      Markup.text, String.join, String.append_assoc]

theorem mem_frame (c : Call) (r : ListCellsResult) (h : c ∈ frame r) :
    (∃ t, c = Call.say (Markup.raw t)) ∨ (∃ t, c = Call.say (Markup.Red t)) ∨
      (∃ t, c = Call.say (Markup.Green t)) ∨ (∃ t, c = Call.say (Markup.Yellow t)) ∨
      c = Call.say Markup.ClearToEndOfLine ∨ c = Call.newLine ∨
      c = Call.say Markup.ClearToEndOfDisplay := by
  cases r with
  | error e =>
    rw [frame_error] at h
    simp at h
    rcases h with rfl | rfl | rfl | rfl <;> simp
  | ok cells =>
    rw [frame_ok] at h
    rcases List.mem_append.1 h with h | h
    · rcases List.mem_flatten.1 h with ⟨l, hl, hc⟩
      rcases List.mem_map.1 hl with ⟨cell, _, rfl⟩
      rw [cellCalls_eq] at hc
      cases hm : cell.Missing <;> simp [cellLine, lineHead, hm] at hc <;>
        rcases hc with rfl | rfl | rfl | rfl | rfl | rfl | rfl <;> simp
    · simp at h
      simp [h]

theorem up_not_mem_frame (r : ListCellsResult) (n : Nat) :
    Call.say (Markup.Up n) ∉ frame r := by
  intro h
  rcases mem_frame _ r h with ⟨t, ht⟩ | ⟨t, ht⟩ | ⟨t, ht⟩ | ⟨t, ht⟩ | ht | ht | ht <;> cases ht

theorem hide_not_mem_frame (r : ListCellsResult) : Call.say Markup.Hide ∉ frame r := by
  intro h
  rcases mem_frame _ r h with ⟨t, ht⟩ | ⟨t, ht⟩ | ⟨t, ht⟩ | ⟨t, ht⟩ | ht | ht | ht <;> cases ht

theorem show_not_mem_frame (r : ListCellsResult) : Call.say Markup.Show ∉ frame r := by
  intro h
  rcases mem_frame _ r h with ⟨t, ht⟩ | ⟨t, ht⟩ | ⟨t, ht⟩ | ⟨t, ht⟩ | ht | ht | ht <;> cases ht

theorem show_not_mem_redraws (rs : List ListCellsResult) (prev : ListCellsResult) :
    Call.say Markup.Show ∉ redraws prev rs := by
  induction rs generalizing prev with
  | nil => simp [redraws]
  | cons r rs ih => simp [redraws, show_not_mem_frame, ih]

theorem ticksOf_append (a b : List Label) : ticksOf (a ++ b) = ticksOf a ++ ticksOf b := by
  induction a with
  | nil => rfl
  | cons l a ih => cases l <;> simp [ticksOf, ih]

theorem redraws_snoc (rs : List ListCellsResult) (prev r : ListCellsResult) :
    redraws prev (rs ++ [r])
      = redraws prev rs ++ Call.say (Markup.Up (lineCount (lastOf prev rs))) :: frame r := by
  induction rs generalizing prev with
  | nil => simp [redraws, lastOf]
  | cons a rs ih => simp [redraws, lastOf, ih, List.append_assoc]

theorem lastOf_snoc (rs : List ListCellsResult) (prev r : ListCellsResult) :
    lastOf prev (rs ++ [r]) = r := by
  induction rs generalizing prev with
  | nil => rfl
  | cons a rs ih => simpa [lastOf] using ih a

theorem Inv_init (rate : Int) (h : rate ≠ 0) (r0 : ListCellsResult) :
    Inv r0 [] (visualizeCells rate r0) := by
  constructor <;>
    simp [visualizeCells, h, expectedOut, showTail, redraws, ticksOf, phase, lastResult, lastOf,
      printDistribution_fst, printDistribution_snd, Output.Say]

theorem Inv_step (r0 : ListCellsResult) (ls : List Label) (s s1 : State) (l : Label)
    (hI : Inv r0 ls s) (h : step s l = some s1) : Inv r0 (ls ++ [l]) s1 := by
  obtain ⟨o, lp, cb, tr, tm, fr⟩ := s
  obtain ⟨ho, hf, ht, hp⟩ := hI
  simp only at ho hf ht hp
  cases l <;> cases lp <;> cases cb <;> cases tr <;> simp [step, phase] at h hp <;>
    subst h <;> constructor <;>
    simp_all [expectedOut, showTail, ticksOf_append, ticksOf, phase, lastResult, lastOf,
      List.count_append, List.count_cons, Output.Say, printDistribution_fst,
      printDistribution_snd, redraws_snoc, lastOf_snoc, redraws]

theorem Inv_run (r0 : ListCellsResult) (ls pre : List Label) (s s1 : State)
    (hI : Inv r0 pre s) (h : run s ls = some s1) : Inv r0 (pre ++ ls) s1 := by
  induction ls generalizing pre s with
  | nil =>
    simp only [run, Option.some.injEq] at h
    subst h
    simpa using hI
  | cons l ls ih =>
    simp only [run] at h
    cases hs : step s l with
    | none => simp [hs] at h
    | some s2 =>
      rw [hs] at h
      have := ih (pre ++ [l]) s2 (Inv_step r0 pre s s2 l hI hs) h
      simpa [List.append_assoc] using this

theorem Inv_reach (rate : Int) (h : rate ≠ 0) (r0 : ListCellsResult) (ls : List Label)
    (s : State) (hr : run (visualizeCells rate r0) ls = some s) : Inv r0 ls s := by
  simpa using Inv_run r0 ls [] _ s (Inv_init rate h r0) hr

theorem step_returned (s s1 : State) (l : Label) (hl : s.loop = Loop.returned)
    (h : step s l = some s1) :
    s1.loop = Loop.returned ∧ s1.frames = s.frames ∧ s1.timers = s.timers ∧ ticksOf [l] = [] := by
  obtain ⟨o, lp, cb, tr, tm, fr⟩ := s
  simp only at hl
  subst hl
  cases l <;> cases cb <;> cases tr <;> simp [step] at h <;> subst h <;> simp [ticksOf]

theorem run_returned (ls : List Label) (s s1 : State) (hl : s.loop = Loop.returned)
    (h : run s ls = some s1) :
    s1.loop = Loop.returned ∧ s1.frames = s.frames ∧ s1.timers = s.timers ∧ ticksOf ls = [] := by
  induction ls generalizing s with
  | nil =>
    simp only [run, Option.some.injEq] at h
    subst h
    simp [hl, ticksOf]
  | cons l ls ih =>
    simp only [run] at h
    cases hs : step s l with
    | none => simp [hs] at h
    | some s2 =>
      rw [hs] at h
      obtain ⟨h1, h2, h3, h4⟩ := step_returned s s2 l hl hs
      obtain ⟨k1, k2, k3, k4⟩ := ih s2 h1 h
      refine ⟨k1, k2.trans h2, k3.trans h3, ?_⟩
      have := ticksOf_append [l] ls
      simpa [h4, k4] using this

theorem show_not_mem_base (r0 : ListCellsResult) (ls : List Label) :
    Call.say Markup.Show ∉ (Call.say (Markup.Bold "Distribution\n") :: frame r0 ++
      Call.say Markup.Hide :: redraws r0 (ticksOf ls)) := by
  simp [show_not_mem_frame, show_not_mem_redraws]

theorem count_show_expectedOut (r0 : ListCellsResult) (ls : List Label) (cb : Callback) :
    (expectedOut r0 ls cb).count (Call.say Markup.Show)
      = if cb = Callback.done then 1 else 0 := by
  unfold expectedOut
  rw [List.count_append, List.count_eq_zero_of_not_mem (show_not_mem_base r0 ls)]
  cases cb <;> simp [showTail]

theorem printDistribution_count_clear (r : ListCellsResult) :
    ∃ body : List Call,
      frame r = body ++ [Call.say Markup.ClearToEndOfDisplay] ∧
      Call.say Markup.ClearToEndOfDisplay ∉ body ∧
      (frame r).count (Call.say Markup.ClearToEndOfDisplay) = 1 ∧
      body.count Call.newLine = lineCount r := by
  cases r with
  | ok cells =>
    refine ⟨(cells.map cellCalls).flatten, frame_ok cells, clearDisplay_not_mem_cells cells,
      ?_, ?_⟩
    · rw [frame_ok, List.count_append,
        List.count_eq_zero_of_not_mem (clearDisplay_not_mem_cells cells)]
      simp
    · rw [count_newLine_cells]
      rfl
  | error e =>
    refine ⟨[Call.say (Markup.raw ("Error visualizing: " ++ e)),
      Call.say Markup.ClearToEndOfLine, Call.newLine], ?_, ?_, ?_, ?_⟩
    · rw [frame_error]
      rfl
    · simp
    · rw [frame_error]
      simp [List.count_cons]
    · simp [List.count_cons]
      rfl

/-! ## The frame renderer: claims on printDistribution -/

/-- C1: for a snapshot of N cells returned by ListCells without error, printDistribution
appends to the output exactly N NewLine calls, which close exactly N lines, and returns N. -/
theorem printDistribution_ok_lines (o : Output) (cells : List CellInfo) :
    ∃ written : List Call,
      (printDistribution o (ListCellsResult.ok cells)).1 = o ++ written ∧
      written.count Call.newLine = cells.length ∧
      (splitLines written).1.length = cells.length ∧
      (printDistribution o (ListCellsResult.ok cells)).2 = cells.length := by
  refine ⟨frame (ListCellsResult.ok cells), printDistribution_fst o _, ?_, ?_, rfl⟩
  · rw [frame_ok, List.count_append, count_newLine_cells]
    simp
  · rw [frame_ok_split]
    simp

/-- C2: when ListCells returns an error with message e, printDistribution writes exactly one
line, made of the text "Error visualizing: " followed by e and of ClearToEndOfLine, writes
no cell line (nothing else but the closing ClearToEndOfDisplay), and returns 1. -/
theorem printDistribution_error_line (o : Output) (e : String) :
    ∃ written : List Call,
      (printDistribution o (ListCellsResult.error e)).1 = o ++ written ∧
      written = [Call.say (Markup.raw ("Error visualizing: " ++ e)),
        Call.say Markup.ClearToEndOfLine, Call.newLine,
        Call.say Markup.ClearToEndOfDisplay] ∧
      splitLines written
        = ([[Call.say (Markup.raw ("Error visualizing: " ++ e)),
              Call.say Markup.ClearToEndOfLine]],
            [Call.say Markup.ClearToEndOfDisplay]) ∧
      written.count Call.newLine = 1 ∧
      (printDistribution o (ListCellsResult.error e)).2 = 1 := by
  refine ⟨frame (ListCellsResult.error e), printDistribution_fst o _, frame_error e, ?_, ?_, rfl⟩
  · rw [frame_error]
    simp [splitLines]
  · rw [frame_error]
    simp [List.count_cons]

/-- C3: for a fetched snapshot the lines written by printDistribution are, in order, the
lines of the cells of the snapshot (the i-th line is that of the i-th cell); each line is
its prefix followed by one green string of exactly RunningInstances bullets, one yellow
string of exactly ClaimedInstances bullets and ClearToEndOfLine, and is closed by NewLine. -/
theorem printDistribution_cell_lines (o : Output) (cells : List CellInfo) :
    ∃ written : List Call,
      (printDistribution o (ListCellsResult.ok cells)).1 = o ++ written ∧
      (splitLines written).1 = cells.map (fun cell =>
        lineHead cell ++
          [Call.say (Markup.Green (stringsRepeat "•" cell.RunningInstances)),
            Call.say (Markup.Yellow (stringsRepeat "•" cell.ClaimedInstances)),
            Call.say Markup.ClearToEndOfLine]) ∧
      (∀ i : Nat, (splitLines written).1[i]? = (cells[i]?).map cellLine) ∧
      (∀ cell : CellInfo, ∀ c ∈ lineHead cell, c.isBar = false ∧ c ≠ Call.newLine) ∧
      (∀ n : Nat, (stringsRepeat "•" n).data = List.replicate n '•') := by
  refine ⟨frame (ListCellsResult.ok cells), printDistribution_fst o _, ?_, ?_, ?_,
    stringsRepeat_bullet⟩
  · rw [frame_ok_split]
    rfl
  · intro i
    rw [frame_ok_split]
    simp
  · intro cell c hc
    cases hm : cell.Missing <;> simp [lineHead, hm] at hc <;>
      rcases hc with rfl | rfl | rfl <;> simp [Call.isBar]

/-- C4, the claim fails on its own example: the line of the missing cell "cell-2" starts with
the text "cell-2[MISSING]: ", without a blank before the marker. -/
theorem missing_marker_has_no_blank :
    (splitLines (printDistribution []
        (ListCellsResult.ok [⟨"cell-1", false, 3, 1⟩, ⟨"cell-2", true, 0, 0⟩])).1).1.map headText
      = ["cell-1: ", "cell-2[MISSING]: "] ∧
    "cell-2[MISSING]: " ≠ "cell-2 [MISSING]: " := by
  constructor
  · rw [printDistribution_fst, List.nil_append, frame_ok_split]
    simp [headText_cellLine]
  · decide

/-- C4 as amended: the text of a cell line that precedes the glyph bars is the cell id followed
by ": " when the missing flag is clear, and the cell id followed by "[MISSING]: " when it is
set. The example snapshot renders "cell-1: " with 3 green and 1 yellow bullets, then
"cell-2[MISSING]: " with empty bars. -/
theorem printDistribution_line_head (o : Output) (cells : List CellInfo) :
    (∃ written : List Call,
      (printDistribution o (ListCellsResult.ok cells)).1 = o ++ written ∧
      (splitLines written).1.map headText = cells.map (fun cell =>
        if cell.Missing then cell.CellID ++ "[MISSING]: " else cell.CellID ++ ": ")) ∧
    frame (ListCellsResult.ok [⟨"cell-1", false, 3, 1⟩, ⟨"cell-2", true, 0, 0⟩])
      = [Call.say (Markup.raw "cell-1"), Call.say (Markup.raw ": "),
          Call.say (Markup.Green "•••"), Call.say (Markup.Yellow "•"),
          Call.say Markup.ClearToEndOfLine, Call.newLine,
          Call.say (Markup.raw "cell-2"), Call.say (Markup.Red "[MISSING]"),
          Call.say (Markup.raw ": "),
          Call.say (Markup.Green ""), Call.say (Markup.Yellow ""),
          Call.say Markup.ClearToEndOfLine, Call.newLine,
          Call.say Markup.ClearToEndOfDisplay] := by
  constructor
  · refine ⟨frame (ListCellsResult.ok cells), printDistribution_fst o _, ?_⟩
    rw [frame_ok_split]
    simp [headText_cellLine]
  · simp [frame, printDistribution, printCell, Output.Say, Output.NewLine, stringsRepeat]

/-- C10: every call of printDistribution, on both paths, writes ClearToEndOfDisplay exactly
once, as the last call, after all the lines of the frame (the NewLine calls counted by
the returned value all come before it). -/
theorem printDistribution_clear_last (o : Output) (r : ListCellsResult) :
    ∃ body : List Call,
      (printDistribution o r).1 = o ++ body ++ [Call.say Markup.ClearToEndOfDisplay] ∧
      Call.say Markup.ClearToEndOfDisplay ∉ body ∧
      (body ++ [Call.say Markup.ClearToEndOfDisplay]).count
        (Call.say Markup.ClearToEndOfDisplay) = 1 ∧
      body.count Call.newLine = (printDistribution o r).2 := by
  obtain ⟨body, hb, hn, hc, hl⟩ := printDistribution_count_clear r
  refine ⟨body, ?_, hn, ?_, ?_⟩
  · rw [printDistribution_fst, hb, List.append_assoc]
  · rw [← hb]
    exact hc
  · rw [hl, printDistribution_snd]

/-! ## The refresh loop: claims on visualizeCells -/

/-- C5: in a run of visualizeCells with a non-zero rate, whatever ListCells returns, the
output is the title, the first frame, Hide, and then for each tick handled exactly one
cursor.Up followed at once by the frame of the tick (no frame holds a cursor.Up); the
argument of the cursor.Up is the count returned by the printDistribution call before it
(1 after a failure), and the stored count becomes the count of the new frame. -/
theorem visualizeCells_redraw_trace (rate : Int) (hrate : rate ≠ 0) (r0 : ListCellsResult)
    (ls : List Label) (s : State) (hrun : run (visualizeCells rate r0) ls = some s) :
    s.out = Call.say (Markup.Bold "Distribution\n") :: frame r0 ++
        Call.say Markup.Hide :: redraws r0 (ticksOf ls) ++ showTail s.callback ∧
    (∀ n, s.loop = Loop.waiting n → n = lineCount (lastOf r0 (ticksOf ls))) ∧
    (∀ n r, s.loop = Loop.waiting n → s.timerReady = true →
      ∃ s1, step s (Label.tick r) = some s1 ∧
        s1.out = s.out ++ Call.say (Markup.Up n) :: frame r ∧
        s1.loop = Loop.waiting (lineCount r)) ∧
    (∀ r n, Call.say (Markup.Up n) ∉ frame r) ∧
    (∀ e, lineCount (ListCellsResult.error e) = 1) ∧
    (∀ cells, lineCount (ListCellsResult.ok cells) = cells.length) := by
  have hI := Inv_reach rate hrate r0 ls s hrun
  refine ⟨hI.out_eq, ?_, ?_, up_not_mem_frame, fun _ => rfl, fun _ => rfl⟩
  · intro n hn
    have hp := hI.phase_ok
    rw [hn] at hp
    cases hc : s.callback <;> rw [hc] at hp <;> simp [phase, lastResult] at hp <;> exact hp.1
  · intro n r hn ht
    simp [step, hn, ht, printDistribution_fst, printDistribution_snd, Output.Say]

/-- Witness of C5: a failed first fetch, then a tick that fetches one cell. -/
theorem visualizeCells_redraw_trace_witness :
    (5 : Int) ≠ 0 ∧
    run (visualizeCells 5 (ListCellsResult.error "down"))
        [Label.fire, Label.tick (ListCellsResult.ok [⟨"cell-1", false, 1, 0⟩])]
      = some { out := [Call.say (Markup.Bold "Distribution\n"),
                  Call.say (Markup.raw "Error visualizing: down"),
                  Call.say Markup.ClearToEndOfLine, Call.newLine,
                  Call.say Markup.ClearToEndOfDisplay,
                  Call.say Markup.Hide,
                  Call.say (Markup.Up 1),
                  Call.say (Markup.raw "cell-1"), Call.say (Markup.raw ": "),
                  Call.say (Markup.Green "•"), Call.say (Markup.Yellow ""),
                  Call.say Markup.ClearToEndOfLine, Call.newLine,
                  Call.say Markup.ClearToEndOfDisplay],
               loop := Loop.waiting 1, callback := Callback.registered,
               timerReady := false, timers := 2, frames := 2 } ∧
    (∀ n, Loop.waiting 1 = Loop.waiting n → n = lineCount (lastOf (ListCellsResult.error "down")
      (ticksOf [Label.fire, Label.tick (ListCellsResult.ok [⟨"cell-1", false, 1, 0⟩])]))) := by
  have hrun : run (visualizeCells 5 (ListCellsResult.error "down"))
        [Label.fire, Label.tick (ListCellsResult.ok [⟨"cell-1", false, 1, 0⟩])]
      = some { out := [Call.say (Markup.Bold "Distribution\n"),
                  Call.say (Markup.raw "Error visualizing: down"),
                  Call.say Markup.ClearToEndOfLine, Call.newLine,
                  Call.say Markup.ClearToEndOfDisplay,
                  Call.say Markup.Hide,
                  Call.say (Markup.Up 1),
                  Call.say (Markup.raw "cell-1"), Call.say (Markup.raw ": "),
                  Call.say (Markup.Green "•"), Call.say (Markup.Yellow ""),
                  Call.say Markup.ClearToEndOfLine, Call.newLine,
                  Call.say Markup.ClearToEndOfDisplay],
               loop := Loop.waiting 1, callback := Callback.registered,
               timerReady := false, timers := 2, frames := 2 } := by
    simp [run, step, visualizeCells, printDistribution, printCell, Output.Say, Output.NewLine,
      stringsRepeat]
  exact ⟨by decide, hrun, (visualizeCells_redraw_trace 5 (by decide) _ _ _ hrun).2.1⟩

/-- C6: with rate 0, visualizeCells calls printDistribution exactly once, writes the title
and that frame only (neither Hide nor Show), never calls OnExit, creates no timer and
returns; no step of the loop or of a callback is enabled afterwards. -/
theorem visualizeCells_zero_rate (r0 : ListCellsResult) :
    (visualizeCells 0 r0).frames = 1 ∧
    (visualizeCells 0 r0).out = Call.say (Markup.Bold "Distribution\n") :: frame r0 ∧
    (visualizeCells 0 r0).out.count (Call.say Markup.ClearToEndOfDisplay) = 1 ∧
    Call.say Markup.Hide ∉ (visualizeCells 0 r0).out ∧
    Call.say Markup.Show ∉ (visualizeCells 0 r0).out ∧
    (visualizeCells 0 r0).callback = Callback.unregistered ∧
    (visualizeCells 0 r0).timers = 0 ∧
    (visualizeCells 0 r0).loop = Loop.returned ∧
    (∀ l, step (visualizeCells 0 r0) l = none) := by
  have hout : (visualizeCells 0 r0).out = Call.say (Markup.Bold "Distribution\n") :: frame r0 := by
    simp [visualizeCells, printDistribution_fst, Output.Say]
  refine ⟨rfl, hout, ?_, ?_, ?_, rfl, rfl, rfl, ?_⟩
  · rw [hout]
    obtain ⟨body, hb, hn, hc, _⟩ := printDistribution_count_clear r0
    rw [List.count_cons, hc]
    simp
  · rw [hout]
    simp [hide_not_mem_frame]
  · rw [hout]
    simp [show_not_mem_frame]
  · intro l
    cases l <;> simp [step, visualizeCells]

/-- C7: in a run with a non-zero rate the exit callback is invoked at most once; the loop has
returned exactly when the select has taken the cancellation signal, and from then on no
tick is handled, printDistribution is not called again and the loop stays returned;
cursor.Show is written once when the callback has finished and not at all before, never
without the signal having been taken, and is the next thing the callback does after it. -/
theorem visualizeCells_cancellation (rate : Int) (hrate : rate ≠ 0) (r0 : ListCellsResult)
    (ls : List Label) (s : State) (hrun : run (visualizeCells rate r0) ls = some s) :
    ls.count Label.exit ≤ 1 ∧
    (Label.close ∈ ls ↔ s.loop = Loop.returned) ∧
    (s.loop = Loop.returned → ∀ more s1, run s more = some s1 →
      ticksOf more = [] ∧ s1.frames = s.frames ∧ s1.loop = Loop.returned) ∧
    s.out.count (Call.say Markup.Show) = (if s.callback = Callback.done then 1 else 0) ∧
    (Call.say Markup.Show ∈ s.out → Label.close ∈ ls) ∧
    (s.callback = Callback.sent → ∃ s1, step s Label.show = some s1 ∧
      s1.callback = Callback.done ∧ s1.out = s.out ++ [Call.say Markup.Show] ∧
      s1.out.count (Call.say Markup.Show) = 1) := by
  have hI := Inv_reach rate hrate r0 ls s hrun
  have hcount : s.out.count (Call.say Markup.Show)
      = (if s.callback = Callback.done then 1 else 0) := by
    rw [hI.out_eq]
    exact count_show_expectedOut r0 ls s.callback
  have hp := hI.phase_ok
  refine ⟨?_, ?_, ?_, hcount, ?_, ?_⟩
  · cases hl : s.loop <;> cases hc : s.callback <;> rw [hl, hc] at hp <;>
      simp [phase] at hp <;> omega
  · rw [← List.count_pos_iff]
    cases hl : s.loop <;> cases hc : s.callback <;> rw [hl, hc] at hp <;>
      simp [phase] at hp <;> simp [hp]
  · intro hl more s1 hm
    obtain ⟨h1, h2, _, h4⟩ := run_returned more s s1 hl hm
    exact ⟨h4, h2, h1⟩
  · intro hmem
    have hpos := List.count_pos_iff.2 hmem
    rw [hcount] at hpos
    have hdone : s.callback = Callback.done := by
      by_contra hne
      simp [hne] at hpos
    rw [hdone] at hp
    rw [← List.count_pos_iff]
    cases hl : s.loop <;> rw [hl] at hp <;> simp [phase] at hp
    omega
  · intro hc
    refine ⟨{ s with out := s.out.Say Markup.Show, callback := Callback.done }, ?_, rfl, rfl, ?_⟩
    · simp [step, hc]
    · simp only [Output.Say, List.count_append, hcount, hc]
      simp

/-- Witness of C7: the callback is invoked while the loop waits, the select takes the signal,
the callback says Show. -/
theorem visualizeCells_cancellation_witness :
    (2 : Int) ≠ 0 ∧
    run (visualizeCells 2 (ListCellsResult.ok []))
        [Label.fire, Label.tick (ListCellsResult.ok []), Label.exit, Label.close, Label.show]
      = some { out := [Call.say (Markup.Bold "Distribution\n"),
                  Call.say Markup.ClearToEndOfDisplay, Call.say Markup.Hide,
                  Call.say (Markup.Up 0), Call.say Markup.ClearToEndOfDisplay,
                  Call.say Markup.Show],
               loop := Loop.returned, callback := Callback.done,
               timerReady := false, timers := 2, frames := 2 } ∧
    [Label.fire, Label.tick (ListCellsResult.ok []), Label.exit, Label.close,
      Label.show].count Label.exit ≤ 1 := by
  have hrun : run (visualizeCells 2 (ListCellsResult.ok []))
        [Label.fire, Label.tick (ListCellsResult.ok []), Label.exit, Label.close, Label.show]
      = some { out := [Call.say (Markup.Bold "Distribution\n"),
                  Call.say Markup.ClearToEndOfDisplay, Call.say Markup.Hide,
                  Call.say (Markup.Up 0), Call.say Markup.ClearToEndOfDisplay,
                  Call.say Markup.Show],
               loop := Loop.returned, callback := Callback.done,
               timerReady := false, timers := 2, frames := 2 } := by
    simp [run, step, visualizeCells, printDistribution, Output.Say]
  exact ⟨by decide, hrun, (visualizeCells_cancellation 2 (by decide) _ _ _ hrun).1⟩

/-- C8, the claim fails: with the callback blocked at its send and the timer channel holding
a value, the select may take the timer case; the loop then says cursor.Up and renders a
second frame, and is back at the select. -/
theorem select_may_take_tick_when_both_ready :
    (run (visualizeCells 1 (ListCellsResult.ok [])) [Label.exit, Label.fire]).map bothReady
      = some true ∧
    (run (visualizeCells 1 (ListCellsResult.ok []))
        [Label.exit, Label.fire, Label.tick (ListCellsResult.ok [])]).map
        (fun s => (s.frames, s.out.count (Call.say (Markup.Up 0)), s.loop))
      = some (2, 1, Loop.waiting 0) := by
  constructor <;>
    simp [run, step, visualizeCells, printDistribution, Output.Say, bothReady, List.count_cons]

/-- C8 as amended: at a wait point where the cancellation signal and a tick are both ready the
select may take either case. Taking the cancellation case writes nothing, renders no frame
and makes the loop return; taking the timer case writes one cursor.Up and one frame and
consumes the tick (no further tick can be handled before a timer elapses again), and the
cancellation signal stays pending for a later wait point: the callback is still blocked at
its send without having said cursor.Show, the loop is back at the select with the count of
the new frame, and the select can take the cancellation case there. In every run the number
of frames rendered is one more than the number of ticks handled. -/
theorem select_both_ready (s : State) (h : bothReady s = true) :
    (∃ s1, step s Label.close = some s1 ∧ s1.loop = Loop.returned ∧ s1.out = s.out ∧
      s1.frames = s.frames) ∧
    (∀ r, ∃ s1 n, step s (Label.tick r) = some s1 ∧ s.loop = Loop.waiting n ∧
      s1.out = s.out ++ Call.say (Markup.Up n) :: frame r ∧
      s1.frames = s.frames + 1 ∧ (∀ r1, step s1 (Label.tick r1) = none) ∧
      s1.callback = Callback.sending ∧ s1.loop = Loop.waiting (lineCount r) ∧
      step s1 Label.show = none ∧
      ∃ s2, step s1 Label.close = some s2 ∧ s2.loop = Loop.returned ∧
        s2.callback = Callback.sent ∧ s2.out = s1.out ∧ s2.frames = s1.frames) ∧
    (∀ (rate : Int) r0 ls s1, run (visualizeCells rate r0) ls = some s1 →
      s1.frames = (ticksOf ls).length + 1) := by
  obtain ⟨o, lp, cb, tr, tm, fr⟩ := s
  cases lp <;> cases cb <;> cases tr <;> simp [bothReady] at h
  refine ⟨?_, ?_, ?_⟩
  · simp [step]
  · intro r
    simp [step, printDistribution_fst, printDistribution_snd, Output.Say]
  · intro rate r0 ls s1 hrun
    by_cases hrate : rate = 0
    · subst hrate
      obtain ⟨_, h2, _, h4⟩ := run_returned ls _ s1 rfl hrun
      rw [h2, h4]
      rfl
    · exact (Inv_reach rate hrate r0 ls s1 hrun).frames_eq

/-- Witness of C8 as amended: a state with the loop at the select, the timer channel ready and
the callback blocked at its send. The select can take the cancellation case; it can also
take the timer case, after which the signal is still pending and can be taken. -/
theorem select_both_ready_witness :
    bothReady { out := [], loop := Loop.waiting 3, callback := Callback.sending,
                timerReady := true, timers := 1, frames := 1 } = true ∧
    (∃ s1, step { out := [], loop := Loop.waiting 3, callback := Callback.sending,
                  timerReady := true, timers := 1, frames := 1 } Label.close = some s1 ∧
      s1.loop = Loop.returned ∧ s1.out = [] ∧ s1.frames = 1) ∧
    (∃ s1, step { out := [], loop := Loop.waiting 3, callback := Callback.sending,
                  timerReady := true, timers := 1, frames := 1 }
              (Label.tick (ListCellsResult.ok [])) = some s1 ∧
      s1.callback = Callback.sending ∧ s1.loop = Loop.waiting 0 ∧
      ∃ s2, step s1 Label.close = some s2 ∧ s2.loop = Loop.returned) := by
  have hw := select_both_ready
    { out := [], loop := Loop.waiting 3, callback := Callback.sending, timerReady := true,
      timers := 1, frames := 1 } rfl
  obtain ⟨s1, n, h1, _, _, _, _, hc, hl, _, s2, h2, h3, _⟩ := hw.2.1 (ListCellsResult.ok [])
  exact ⟨rfl, hw.1, s1, h1, hc, hl, s2, h2, h3⟩

/-- C9, the claim fails: after the callback is invoked and the loop has handled two more ticks
without taking the signal, the callback is still blocked at its send, its next statement
(the Say of cursor.Show) cannot run, and no cursor.Show has been written. -/
theorem callback_blocked_while_signal_not_taken :
    (run (visualizeCells 1 (ListCellsResult.ok []))
        [Label.exit, Label.fire, Label.tick (ListCellsResult.ok []), Label.fire,
          Label.tick (ListCellsResult.error "down")]).map
        (fun s => (s.callback, s.out.count (Call.say Markup.Show), step s Label.show))
      = some (Callback.sending, 0, none) := by
  simp [run, step, visualizeCells, printDistribution, Output.Say, Output.NewLine,
    List.count_cons]

/-- C9 as amended: the callback sends the cancellation signal once, and the select takes it
at most once; while the callback is blocked at the send no cursor.Show is written and the
callback cannot go on; cursor.Show is written only after the select has taken the signal,
and then it is the next step of the callback. The loop itself never writes cursor.Show. -/
theorem callback_show_after_signal_taken (rate : Int) (hrate : rate ≠ 0)
    (r0 : ListCellsResult) (ls : List Label) (s : State)
    (hrun : run (visualizeCells rate r0) ls = some s) :
    ls.count Label.close ≤ 1 ∧
    (Label.close ∉ ls → Call.say Markup.Show ∉ s.out ∧ step s Label.show = none) ∧
    (s.callback = Callback.sending →
      ∃ s1 s2, step s Label.close = some s1 ∧ s1.callback = Callback.sent ∧
        step s1 Label.show = some s2 ∧ s2.out = s.out ++ [Call.say Markup.Show]) ∧
    (∀ r s1, step s (Label.tick r) = some s1 →
      s1.out.count (Call.say Markup.Show) = s.out.count (Call.say Markup.Show)) := by
  have hI := Inv_reach rate hrate r0 ls s hrun
  have hp := hI.phase_ok
  have hcount : s.out.count (Call.say Markup.Show)
      = (if s.callback = Callback.done then 1 else 0) := by
    rw [hI.out_eq]
    exact count_show_expectedOut r0 ls s.callback
  refine ⟨?_, ?_, ?_, ?_⟩
  · cases hl : s.loop <;> cases hc : s.callback <;> rw [hl, hc] at hp <;>
      simp [phase] at hp <;> omega
  · intro hclose
    have hz : ls.count Label.close = 0 := List.count_eq_zero_of_not_mem hclose
    constructor
    · intro hmem
      have hpos := List.count_pos_iff.2 hmem
      rw [hcount] at hpos
      have hdone : s.callback = Callback.done := by
        by_contra hne
        simp [hne] at hpos
      rw [hdone] at hp
      cases hl : s.loop <;> rw [hl] at hp <;> simp [phase] at hp
      omega
    · cases hl : s.loop <;> cases hc : s.callback <;> rw [hl, hc] at hp <;>
        simp [phase] at hp <;> first | omega | simp [step, hc]
  · intro hc
    cases hl : s.loop <;> rw [hl, hc] at hp <;> simp [phase] at hp
    simp [step, hl, hc, Output.Say]
  · intro r s1 hs
    obtain ⟨o, lp, cb, tr, tm, fr⟩ := s
    cases lp <;> cases tr <;> simp [step] at hs
    subst hs
    simp [printDistribution_fst, Output.Say, List.count_append, List.count_cons,
      List.count_eq_zero_of_not_mem (show_not_mem_frame r)]

/-- Witness of C9 as amended: the callback is invoked and the loop takes the signal. -/
theorem callback_show_after_signal_taken_witness :
    (3 : Int) ≠ 0 ∧
    run (visualizeCells 3 (ListCellsResult.error "down")) [Label.exit, Label.close]
      = some { out := [Call.say (Markup.Bold "Distribution\n"),
                  Call.say (Markup.raw "Error visualizing: down"),
                  Call.say Markup.ClearToEndOfLine, Call.newLine,
                  Call.say Markup.ClearToEndOfDisplay, Call.say Markup.Hide],
               loop := Loop.returned, callback := Callback.sent,
               timerReady := false, timers := 1, frames := 1 } ∧
    [Label.exit, Label.close].count Label.close ≤ 1 := by
  have hrun : run (visualizeCells 3 (ListCellsResult.error "down")) [Label.exit, Label.close]
      = some { out := [Call.say (Markup.Bold "Distribution\n"),
                  Call.say (Markup.raw "Error visualizing: down"),
                  Call.say Markup.ClearToEndOfLine, Call.newLine,
                  Call.say Markup.ClearToEndOfDisplay, Call.say Markup.Hide],
               loop := Loop.returned, callback := Callback.sent,
               timerReady := false, timers := 1, frames := 1 } := by
    simp [run, step, visualizeCells, printDistribution, Output.Say, Output.NewLine]
  exact ⟨by decide, hrun, (callback_show_after_signal_taken 3 (by decide) _ _ _ hrun).1⟩

end Lattice
